import Mathlib

/-!
Shallow embedding of a browser disaster-information widget: a Japanese→English
place-name translator, severity classifiers, per-feed record processing for the
earthquake / tsunami / early-warning (EEW) polls, the alert-sound trigger and
the display-mode selection, together with theorems about their specified
behaviour.

Modelling conventions:
* JavaScript `text.split(key).join(value)` is modelled by `replaceAll`
  (left-to-right, non-overlapping literal replacement); every key in the two
  translation tables is nonempty, where the two coincide.
* The whitespace class used by `replace(/\s+/g, ' ')` and `trim()` is modelled
  by `Char.isWhitespace` (space, tab, CR, LF), which covers the whitespace that
  occurs in the data handled by the widget.
* `toUpperCase()` is modelled by `Char.toUpper` (basic-latin uppercasing - the
  identity on the Japanese characters involved).
* Machine floats (magnitude, depth) are only ever copied by the widget, never
  computed on; they are modelled as `Int`.
* A feed response is `FeedResponse`: `failed` (`!res.ok` or a thrown fetch
  error), `emptyBody` (blank body text), `notArray` (parsed JSON that is not an
  array), or `arr items`.
-/

namespace EEWWidget

/-- Does the key match at the start of the text?  (Literal, character by
character.) -/
def matchesAt : List Char → List Char → Bool
  | [], _ => true
  | _ :: _, [] => false
  | k :: kt, c :: ct => k == c && matchesAt kt ct

/-- One-pass literal replacement scanner.  `replStep k v skip s` copies `skip`
characters (the tail of a key occurrence already matched), then scans `s` left
to right; at each position a match of `k` is replaced by `v` and the scan
resumes after the matched occurrence.  For nonempty `k`,
`replStep k v 0 s` is JavaScript `s.split(k).join(v)`. -/
def replStep (k v : List Char) : Nat → List Char → List Char
  | 0, [] => []
  | 0, c :: rest =>
      if matchesAt k (c :: rest) then v ++ replStep k v (k.length - 1) rest
      else c :: replStep k v 0 rest
  | _ + 1, [] => []
  | n + 1, _ :: rest => replStep k v n rest

/-- JavaScript `s.split(k).join(v)` for the nonempty keys of the tables. -/
def replaceAll (k v s : List Char) : List Char := replStep k v 0 s

/-- `text.replace(/\s+/g, ' ')`: collapse every maximal whitespace run to one
space.  The flag records whether the previous character was whitespace. -/
def collapseWsGo : Bool → List Char → List Char
  | _, [] => []
  | prevWs, c :: rest =>
      if c.isWhitespace then
        (if prevWs then collapseWsGo true rest else ' ' :: collapseWsGo true rest)
      else c :: collapseWsGo false rest

/-- Whitespace-run collapsing, starting outside a run. -/
def collapseWs (s : List Char) : List Char := collapseWsGo false s

/-- Remove trailing whitespace. -/
def trimRight : List Char → List Char
  | [] => []
  | c :: rest =>
      match trimRight rest with
      | [] => if c.isWhitespace then [] else [c]
      | r => c :: r

/-- JavaScript `trim()`: remove leading and trailing whitespace. -/
def trimList (s : List Char) : List Char := trimRight (s.dropWhile Char.isWhitespace)

/-- JavaScript `toUpperCase()` on the character set involved. -/
def upperList (s : List Char) : List Char := s.map Char.toUpper

/-- `PREF_MAP`: prefecture / region names. -/
def PREF_MAP : List (String × String) := [
  ("北海道", "HOKKAIDO"), ("青森", "AOMORI"), ("岩手", "IWATE"), ("宮城", "MIYAGI"), ("秋田", "AKITA"),
  ("山形", "YAMAGATA"), ("福島", "FUKUSHIMA"), ("茨城", "IBARAKI"), ("栃木", "TOCHIGI"), ("群馬", "GUNMA"),
  ("埼玉", "SAITAMA"), ("千葉", "CHIBA"), ("東京", "TOKYO"), ("神奈川", "KANAGAWA"), ("新潟", "NIIGATA"),
  ("富山", "TOYAMA"), ("石川", "ISHIKAWA"), ("福井", "FUKUI"), ("山梨", "YAMANASHI"), ("長野", "NAGANO"),
  ("岐阜", "GIFU"), ("静岡", "SHIZUOKA"), ("愛知", "AICHI"), ("三重", "MIE"), ("滋賀", "SHIGA"),
  ("京都", "KYOTO"), ("大阪", "OSAKA"), ("兵庫", "HYOGO"), ("奈良", "NARA"), ("和歌山", "WAKAYAMA"),
  ("鳥取", "TOTTORI"), ("島根", "SHIMANE"), ("岡山", "OKAYAMA"), ("広島", "HIROSHIMA"), ("山口", "YAMAGUCHI"),
  ("徳島", "TOKUSHIMA"), ("香川", "KAGAWA"), ("愛媛", "EHIME"), ("高知", "KOCHI"), ("福岡", "FUKUOKA"),
  ("佐賀", "SAGA"), ("長崎", "NAGASAKI"), ("熊本", "KUMAMOTO"), ("大分", "OITA"), ("宮崎", "MIYAZAKI"),
  ("鹿児島", "KAGOSHIMA"), ("沖縄", "OKINAWA"),
  ("トカラ", "TOKARA"), ("奄美", "AMAMI")]

/-- `SUFFIX_MAP`: geographic suffixes, in the source's priority order. -/
def SUFFIX_MAP : List (String × String) := [
  ("県", " PREF"), ("府", " PREF"), ("都", " METRO"), ("道", ""),
  ("日本海", " SEA OF JAPAN"), ("太平洋", " PACIFIC"), ("オホーツク海", " OKHOTSK"), ("東シナ海", " EAST CHINA SEA"),
  ("沿岸", " COAST"), ("湾", " BAY"), ("灘", " SEA"), ("海峡", " STRAIT"), ("諸島", " ISLANDS"), ("列島", " ISLANDS"),
  ("近海", " NEAR SEA"), ("外洋", " OPEN SEA"), ("連島", " ISLANDS"), ("沖", " OFF"),
  ("北東部", " NORTH EAST"), ("北西部", " NORTH WEST"), ("南東部", " SOUTH EAST"), ("南西部", " SOUTH WEST"),
  ("北部", " NORTH"), ("南部", " SOUTH"), ("東部", " EAST"), ("西部", " WEST"), ("中部", " CENTRAL"),
  ("北東", " NORTH EAST"), ("北西", " NORTH WEST"), ("南東", " SOUTH EAST"), ("南西", " SOUTH WEST"),
  ("地方", " REGION"), ("半島", " PENINSULA"), ("島", " ISLAND"),
  ("北", " NORTH"), ("南", " SOUTH"), ("東", " EAST"), ("西", " WEST")]

/-- Apply a translation table entry by entry, each by whole-substring
replacement, in the table's order. -/
def applyMapS (m : List (String × String)) (text : List Char) : List Char :=
  m.foldl (fun t kv => replaceAll kv.1.toList kv.2.toList t) text

/-- `translateText` on the character-list representation: prefecture pass, then
suffix pass, then whitespace cleanup and uppercasing.  Empty input short-cuts
to empty output (`if (!japaneseText) return ""`). -/
def translateTextL (s : List Char) : List Char :=
  if s = [] then []
  else upperList (trimList (collapseWs (applyMapS SUFFIX_MAP (applyMapS PREF_MAP s))))

/-- `translateText`: Japanese place name to uppercase English label. -/
def translateText (japaneseText : String) : String :=
  (translateTextL japaneseText.toList).asString

/-- Helper to convert a P2P Quake scale code to a JMA intensity label. -/
def getIntensityLabel (scale : Int) : String :=
  if scale = -1 then "UNKNOWN"
  else if scale < 10 then "0"
  else if scale = 10 then "1"
  else if scale = 20 then "2"
  else if scale = 30 then "3"
  else if scale = 40 then "4"
  else if scale = 45 then "5- (LOWER)"
  else if scale = 50 then "5+ (UPPER)"
  else if scale = 55 then "6- (LOWER)"
  else if scale = 60 then "6+ (UPPER)"
  else if scale = 70 then "7 (MAX)"
  else "?"

/-- Helper for tsunami grade labels. -/
def getTsunamiGradeLabel (grade : String) : String :=
  if grade = "MajorWarning" then "MAJOR WARNING"
  else if grade = "Warning" then "WARNING"
  else if grade = "Watch" then "ADVISORY"
  else "INFO"

/-! ## Predicates used by the translator theorems -/

/-- Every character is ASCII (code below 128). -/
def asciiL (s : List Char) : Bool := s.all (fun c => decide (c.toNat < 128))

/-- The key's first character is outside ASCII. -/
def headNonAscii (s : String) : Bool :=
  match s.toList with
  | [] => false
  | c :: _ => decide (128 ≤ c.toNat)

/-! ### Whitespace-shape predicates used by the idempotence proof -/

/-- No two adjacent whitespace characters. -/
def noAdjWs : List Char → Bool
  | a :: b :: rest => (!(a.isWhitespace && b.isWhitespace)) && noAdjWs (b :: rest)
  | _ => true

/-- Every whitespace character is a plain space. -/
def allSpaceWs (s : List Char) : Bool := s.all (fun c => !c.isWhitespace || c == ' ')

/-- The first character, if any, is not whitespace. -/
def headNotWs : List Char → Bool
  | [] => true
  | c :: _ => !c.isWhitespace

/-- The last character, if any, is not whitespace. -/
def lastNotWs : List Char → Bool
  | [] => true
  | [c] => !c.isWhitespace
  | _ :: b :: t => lastNotWs (b :: t)

/-! ## Data model: the stored records and the raw feed items -/

/-- The stored earthquake record (`QuakeData`; the constant literal tag
`type: 'EARTHQUAKE'` is omitted). -/
structure QuakeData where
  time : String
  hypocenter : String
  magnitude : Int
  maxScale : Int
  depth : Int
deriving DecidableEq

/-- One affected tsunami area after translation. -/
structure TsunamiArea where
  grade : String
  name : String
deriving DecidableEq

/-- The stored tsunami record (`TsunamiData`; constant tag omitted). -/
structure TsunamiData where
  time : String
  cancelled : Bool
  areas : List TsunamiArea
  maxGrade : String
deriving DecidableEq

/-- The stored early-warning record (`EEWData`; constant tag omitted). -/
structure EEWData where
  time : String
  hypocenter : String
  magnitude : Int
  maxScale : Int
  isCancelled : Bool
  isWarning : Bool
deriving DecidableEq

/-- The display mode of the widget. -/
inductive DisplayMode where
  | EARTHQUAKE
  | TSUNAMI
  | EEW
deriving DecidableEq

/-- Raw `earthquake` field of an item of the quake feed (code 551), with the
nested `hypocenter` fields flattened. -/
structure QuakeEarthquakeField where
  time : String
  hypocenterName : String
  magnitude : Int
  maxScale : Int
  depth : Int
deriving DecidableEq

/-- Raw item of the quake feed; `earthquake` may be absent. -/
structure QuakeItem where
  earthquake : Option QuakeEarthquakeField
deriving DecidableEq

/-- Raw area entry of a tsunami-feed item. -/
structure TsunamiAreaItem where
  grade : String
  name : String
deriving DecidableEq

/-- Raw item of the tsunami feed (code 552); the `areas` field may be absent
(`none`) - an empty list is a present, truthy `[]`. -/
structure TsunamiItem where
  time : String
  cancelled : Bool
  areas : Option (List TsunamiAreaItem)
deriving DecidableEq

/-- Raw `earthquake.hypocenter` of an EEW-feed item. -/
structure EEWHypocenter where
  name : String
  magnitude : Int
deriving DecidableEq

/-- Raw `earthquake` field of an EEW-feed item; `maxScale` may be absent
(the code reads it as `... .maxScale || -1`). -/
structure EEWEarthquakeField where
  hypocenter : EEWHypocenter
  maxScale : Option Int
deriving DecidableEq

/-- Raw item of the EEW feed (code 554); `issueType` is `issue.type`. -/
structure EEWItem where
  time : String
  cancelled : Bool
  earthquake : Option EEWEarthquakeField
  issueType : String
deriving DecidableEq

/-- Outcome of one fetch of a feed, as the processing code distinguishes it:
a failed request or thrown error, a blank body, a JSON value that is not an
array, or an array of items. -/
inductive FeedResponse (α : Type) where
  | failed
  | emptyBody
  | notArray
  | arr (items : List α)
deriving DecidableEq

/-- JavaScript `x || -1` on the raw `maxScale` field: absent (or `0`, which is
falsy) becomes `-1`. -/
def jsOrNeg1 : Option Int → Int
  | none => -1
  | some n => if n = 0 then -1 else n

/-! ## Feed processing (the body of `fetchData`, per feed) -/

/-- Process one quake-feed response against the stored record.  A usable first
item replaces the record; everything else leaves it unchanged. -/
def processQuake (resp : FeedResponse QuakeItem) (prev : Option QuakeData) :
    Option QuakeData :=
  match resp with
  | .arr (latestQuake :: _) =>
      match latestQuake.earthquake with
      | some q =>
          some { time := q.time
                 hypocenter := translateText q.hypocenterName
                 magnitude := q.magnitude
                 maxScale := q.maxScale
                 depth := q.depth }
      | none => prev
  | .arr [] => prev
  | _ => prev

/-- Process one tsunami-feed response.  A first item carrying `areas` replaces
the record (with the derived `maxGrade`); a first item without `areas` clears
the record to `none`; everything else leaves it unchanged. -/
def processTsunami (resp : FeedResponse TsunamiItem) (prev : Option TsunamiData) :
    Option TsunamiData :=
  match resp with
  | .arr (latestTsunami :: _) =>
      match latestTsunami.areas with
      | some rawAreas =>
          let areas : List TsunamiArea :=
            rawAreas.map (fun a => { grade := a.grade, name := translateText a.name })
          let maxGrade :=
            if areas.any (fun a => a.grade == "MajorWarning") then "MajorWarning"
            else if areas.any (fun a => a.grade == "Warning") then "Warning"
            else if areas.any (fun a => a.grade == "Watch") then "Watch"
            else "Unknown"
          some { time := latestTsunami.time
                 cancelled := latestTsunami.cancelled
                 areas := areas
                 maxGrade := maxGrade }
      | none => none
  | .arr [] => prev
  | _ => prev

/-- The EEW record built in the fresh, non-cancelled, earthquake-present
branch. -/
def mkEEWData (latestEEW : EEWItem) (eewArea : EEWEarthquakeField) : EEWData :=
  { time := latestEEW.time
    hypocenter := translateText eewArea.hypocenter.name
    magnitude := eewArea.hypocenter.magnitude
    maxScale := jsOrNeg1 eewArea.maxScale
    isCancelled := latestEEW.cancelled
    isWarning := latestEEW.issueType == "Warning" }

/-- Process one EEW-feed response.  `parseTime` stands for
`new Date(item.time).getTime()` (milliseconds) and `now` for `Date.now()`.
A fresh (< 3 minutes old), non-cancelled first item with an `earthquake` field
replaces the record; a stale or cancelled first item clears it to `none`; a
fresh non-cancelled item without `earthquake`, and every other response shape,
leaves it unchanged. -/
def processEEW (parseTime : String → Int) (now : Int)
    (resp : FeedResponse EEWItem) (prev : Option EEWData) : Option EEWData :=
  match resp with
  | .arr (latestEEW :: _) =>
      let eventTime := parseTime latestEEW.time
      if now - eventTime < 3 * 60 * 1000 ∧ latestEEW.cancelled = false then
        match latestEEW.earthquake with
        | some eewArea => some (mkEEWData latestEEW eewArea)
        | none => prev
      else none
  | .arr [] => prev
  | _ => prev

/-! ## Alert-sound trigger (the alert `useEffect`) -/

/-- Result of one run of the alert evaluation: whether `playAlertSound` was
called, the `isEEW` flag it was (or would have been) called with, and the
`lastAlertTime` state after the run. -/
structure AlertResult where
  played : Bool
  isEEW : Bool
  lastAlertTime : Option String
deriving DecidableEq

/-- The tsunami branch of the candidate selection (`shouldAlert, eventTime,
isEEW` after step 3). -/
def tsunamiCheck (tsunamiData : Option TsunamiData) (lastAlertTime : Option String) :
    Bool × String × Bool :=
  match tsunamiData with
  | some td =>
      if td.cancelled = false then
        if lastAlertTime ≠ some td.time then (true, td.time, false)
        else (false, "", false)
      else (false, "", false)
  | none => (false, "", false)

/-- The candidate selection of the alert evaluation: EEW first, then a quake
with `maxScale ≥ 30`, then a non-cancelled tsunami.  Returns the values of
`shouldAlert`, `eventTime` and `isEEW` after the if/else chain. -/
def alertSelect (quakeData : Option QuakeData) (tsunamiData : Option TsunamiData)
    (eewData : Option EEWData) (lastAlertTime : Option String) :
    Bool × String × Bool :=
  match eewData with
  | some ed =>
      if lastAlertTime ≠ some ed.time then (true, ed.time, true)
      else (false, "", false)
  | none =>
      match quakeData with
      | some qd =>
          if qd.maxScale ≥ 30 then
            if lastAlertTime ≠ some qd.time then (true, qd.time, false)
            else (false, "", false)
          else tsunamiCheck tsunamiData lastAlertTime
      | none => tsunamiCheck tsunamiData lastAlertTime

/-- One run of the alert-sound evaluation (test mode off): select a candidate,
then `if (shouldAlert && eventTime) { playAlertSound(isEEW); setLastAlertTime(eventTime); }`. -/
def alertStep (quakeData : Option QuakeData) (tsunamiData : Option TsunamiData)
    (eewData : Option EEWData) (lastAlertTime : Option String) : AlertResult :=
  let sel := alertSelect quakeData tsunamiData eewData lastAlertTime
  if sel.1 = true ∧ sel.2.1 ≠ "" then
    { played := true, isEEW := sel.2.2, lastAlertTime := some sel.2.1 }
  else
    { played := false, isEEW := sel.2.2, lastAlertTime := lastAlertTime }

/-! ## Display-mode selection (the rotation `useEffect` and the mode tabs) -/

/-- `!!eewData`, as used for the `disabled` attribute of the two mode tabs. -/
def isEEWActive (eewData : Option EEWData) : Bool := eewData.isSome

/-- The rotation interval of the mode-selection effect, in milliseconds. -/
def rotationIntervalMs : Nat := 10000

/-- One run of the mode-selection effect body: in test mode nothing happens;
a present EEW record forces mode `EEW` and installs no rotation timer; else a
leftover `EEW` mode is reset to `EARTHQUAKE` and the 10-second rotation timer
is installed.  Returns the mode after the body and the period of the installed
timer (`none` when no timer is installed). -/
def modeEffect (testMode : Bool) (eewData : Option EEWData)
    (activeMode : DisplayMode) : DisplayMode × Option Nat :=
  if testMode then (activeMode, none)
  else
    match eewData with
    | some _ => (DisplayMode.EEW, none)
    | none =>
        ((if activeMode = DisplayMode.EEW then DisplayMode.EARTHQUAKE else activeMode),
         some rotationIntervalMs)

/-- One tick of the rotation timer:
`if (activeMode !== 'EEW') setActiveMode(prev => prev === 'EARTHQUAKE' ? 'TSUNAMI' : 'EARTHQUAKE')`. -/
def rotationTick (activeMode : DisplayMode) : DisplayMode :=
  if activeMode ≠ DisplayMode.EEW then
    match activeMode with
    | DisplayMode.EARTHQUAKE => DisplayMode.TSUNAMI
    | _ => DisplayMode.EARTHQUAKE
  else activeMode

/-- A click on a mode tab: the tabs carry `disabled={isEEWActive}`, so the
click changes the mode to the tab's target only when no EEW record is
present. -/
def clickModeButton (eewData : Option EEWData) (activeMode : DisplayMode)
    (target : DisplayMode) : DisplayMode :=
  if isEEWActive eewData then activeMode else target

/-! ## Sample data used by the concrete witnesses -/

def edSample : EEWData :=
  { time := "2025-11-22T10:00:00", hypocenter := "CHIBA", magnitude := 55,
    maxScale := 50, isCancelled := false, isWarning := true }

def qdSample : QuakeData :=
  { time := "2025-11-22T09:30:00", hypocenter := "TOKYO BAY", magnitude := 45,
    maxScale := 40, depth := 50 }

def tdSample : TsunamiData :=
  { time := "2025-11-22T09:00:00", cancelled := false,
    areas := [{ grade := "Warning", name := "CHIBA" }], maxGrade := "Warning" }

def eewItemSample : EEWItem :=
  { time := "2025-11-22T10:00:00", cancelled := false,
    earthquake := some { hypocenter := { name := "千葉", magnitude := 55 },
                         maxScale := some 50 },
    issueType := "Warning" }

def eewItemStale : EEWItem :=
  { time := "2025-11-22T09:00:00", cancelled := false,
    earthquake := some { hypocenter := { name := "千葉", magnitude := 55 },
                         maxScale := some 50 },
    issueType := "Warning" }

def eewAreaSample : EEWEarthquakeField :=
  { hypocenter := { name := "千葉", magnitude := 55 }, maxScale := some 50 }

/-! ## Lemmas about the translator pipeline -/

theorem pref_heads : PREF_MAP.all (fun kv => headNonAscii kv.1) = true := by decide

theorem suffix_heads : SUFFIX_MAP.all (fun kv => headNonAscii kv.1) = true := by decide

/-! ### Replacement is the identity on ASCII text -/

lemma replStep_id_of_head_notMem (kc : Char) (kt v : List Char) :
    ∀ s : List Char, kc ∉ s → replStep (kc :: kt) v 0 s = s := by
  intro s
  induction s with
  | nil => intro _; rfl
  | cons c rest ih =>
      intro h
      have hkc : (kc == c) = false := by
        simp only [beq_eq_false_iff_ne]
        intro he
        exact h (he ▸ List.mem_cons_self _ _)
      have hmatch : matchesAt (kc :: kt) (c :: rest) = false := by
        simp [matchesAt, hkc]
      rw [replStep, if_neg (by simp [hmatch])]
      exact congrArg (c :: ·) (ih (fun hm => h (List.mem_cons_of_mem _ hm)))

lemma replaceAll_id_of_ascii (k : String) (v s : List Char)
    (hk : headNonAscii k = true) (hs : asciiL s = true) :
    replaceAll k.toList v s = s := by
  unfold headNonAscii at hk
  cases hkl : k.toList with
  | nil => rw [hkl] at hk; cases hk
  | cons kc kt =>
      rw [hkl] at hk
      simp only [decide_eq_true_eq] at hk
      apply replStep_id_of_head_notMem
      intro hmem
      have := List.all_eq_true.mp hs kc hmem
      simp only [decide_eq_true_eq] at this
      omega

lemma applyMapS_id (m : List (String × String)) (s : List Char)
    (hm : m.all (fun kv => headNonAscii kv.1) = true) (hs : asciiL s = true) :
    applyMapS m s = s := by
  induction m with
  | nil => rfl
  | cons kv mrest ih =>
      rw [List.all_cons, Bool.and_eq_true] at hm
      unfold applyMapS
      rw [List.foldl_cons, replaceAll_id_of_ascii kv.1 kv.2.toList s hm.1 hs]
      exact ih hm.2

/-! ### Shape of the output of whitespace collapsing -/

lemma allSpaceWs_iff (s : List Char) :
    allSpaceWs s = true ↔ ∀ c ∈ s, c.isWhitespace = false ∨ c = ' ' := by
  unfold allSpaceWs
  rw [List.all_eq_true]
  constructor <;> intro h c hc <;> have hcur := h c hc <;> revert hcur <;>
    cases hcw : c.isWhitespace <;> simp [hcw]

lemma asciiL_iff (s : List Char) :
    asciiL s = true ↔ ∀ c ∈ s, c.toNat < 128 := by
  unfold asciiL
  rw [List.all_eq_true]
  simp

lemma mem_collapseWsGo (s : List Char) :
    ∀ b c, c ∈ collapseWsGo b s → c = ' ' ∨ (c ∈ s ∧ c.isWhitespace = false) := by
  induction s with
  | nil => intro b c hc; cases hc
  | cons a rest ih =>
      intro b c hc
      by_cases hw : a.isWhitespace
      · rw [collapseWsGo, if_pos hw] at hc
        have hc' : c ∈ collapseWsGo true rest ∨ c = ' ' := by
          cases b
          · rw [if_neg (by simp)] at hc
            rcases List.mem_cons.mp hc with h | h
            · right; exact h
            · left; exact h
          · rw [if_pos rfl] at hc
            left; exact hc
        rcases hc' with h | h
        · rcases ih true c h with h1 | ⟨h2, h3⟩
          · left; exact h1
          · right; exact ⟨List.mem_cons_of_mem _ h2, h3⟩
        · left; exact h
      · rw [collapseWsGo, if_neg hw] at hc
        rcases List.mem_cons.mp hc with h | h
        · subst h
          right
          refine ⟨List.mem_cons_self _ _, ?_⟩
          simpa using hw
        · rcases ih false c h with h1 | ⟨h2, h3⟩
          · left; exact h1
          · right; exact ⟨List.mem_cons_of_mem _ h2, h3⟩

lemma allSpaceWs_collapseWsGo (s : List Char) (b : Bool) :
    allSpaceWs (collapseWsGo b s) = true := by
  rw [allSpaceWs_iff]
  intro c hc
  rcases mem_collapseWsGo s b c hc with h | ⟨_, h⟩
  · right; exact h
  · left; exact h

lemma asciiL_collapseWsGo (s : List Char) (b : Bool) (h : asciiL s = true) :
    asciiL (collapseWsGo b s) = true := by
  rw [asciiL_iff]
  intro c hc
  rcases mem_collapseWsGo s b c hc with h1 | ⟨h2, _⟩
  · subst h1; decide
  · exact (asciiL_iff s).mp h c h2

lemma headNotWs_collapseWsGo_true (s : List Char) :
    headNotWs (collapseWsGo true s) = true := by
  induction s with
  | nil => rfl
  | cons c rest ih =>
      by_cases hw : c.isWhitespace
      · simpa [collapseWsGo, hw] using ih
      · simp [collapseWsGo, hw, headNotWs]

lemma noAdjWs_cons_of (c : Char) (l : List Char) (h1 : headNotWs l = true)
    (h2 : noAdjWs l = true) : noAdjWs (c :: l) = true := by
  cases l with
  | nil => rfl
  | cons b t =>
      simp only [headNotWs, Bool.not_eq_true'] at h1
      simp [noAdjWs, h1, h2]

lemma noAdjWs_cons_nonWs (c : Char) (l : List Char) (hc : c.isWhitespace = false)
    (h2 : noAdjWs l = true) : noAdjWs (c :: l) = true := by
  cases l with
  | nil => rfl
  | cons b t => simp [noAdjWs, hc, h2]

lemma noAdjWs_collapseWsGo (s : List Char) :
    ∀ b, noAdjWs (collapseWsGo b s) = true := by
  induction s with
  | nil => intro b; rfl
  | cons c rest ih =>
      intro b
      by_cases hw : c.isWhitespace
      · rw [collapseWsGo, if_pos hw]
        cases b
        · rw [if_neg (by simp)]
          exact noAdjWs_cons_of ' ' _ (headNotWs_collapseWsGo_true rest) (ih true)
        · rw [if_pos rfl]
          exact ih true
      · rw [collapseWsGo, if_neg hw]
        exact noAdjWs_cons_nonWs c _ (by simpa using hw) (ih false)

lemma noAdjWs_cons_elim (a : Char) (l : List Char) (h : noAdjWs (a :: l) = true) :
    noAdjWs l = true := by
  cases l with
  | nil => rfl
  | cons b t =>
      unfold noAdjWs at h
      rw [Bool.and_eq_true] at h
      exact h.2

lemma collapseWsGo_fix (s : List Char) (h1 : noAdjWs s = true)
    (h2 : allSpaceWs s = true) :
    collapseWsGo false s = s ∧ (headNotWs s = true → collapseWsGo true s = s) := by
  induction s with
  | nil => exact ⟨rfl, fun _ => rfl⟩
  | cons c rest ih =>
      have hrest1 : noAdjWs rest = true := noAdjWs_cons_elim c rest h1
      have hrest2 : allSpaceWs rest = true := by
        rw [allSpaceWs_iff] at h2 ⊢
        exact fun d hd => h2 d (List.mem_cons_of_mem _ hd)
      obtain ⟨ihf, iht⟩ := ih hrest1 hrest2
      by_cases hw : c.isWhitespace
      · have hsp : c = ' ' := by
          rcases (allSpaceWs_iff _).mp h2 c (List.mem_cons_self _ _) with h | h
          · rw [hw] at h; cases h
          · exact h
        have hh : headNotWs rest = true := by
          cases rest with
          | nil => rfl
          | cons b t =>
              unfold noAdjWs at h1
              rw [Bool.and_eq_true] at h1
              have := h1.1
              rw [hw, Bool.true_and, Bool.not_eq_true'] at this
              simp [headNotWs, this]
        constructor
        · rw [collapseWsGo, if_pos hw, if_neg (by simp), iht hh, hsp]
        · intro hhead
          simp [headNotWs, hw] at hhead
      · constructor
        · rw [collapseWsGo, if_neg hw, ihf]
        · intro _
          rw [collapseWsGo, if_neg hw, ihf]

/-! ### Trimming preserves the shape and is the identity on trimmed text -/

lemma mem_trimRight (s : List Char) : ∀ c ∈ trimRight s, c ∈ s := by
  induction s with
  | nil => intro c hc; cases hc
  | cons a rest ih =>
      intro c hc
      rw [trimRight] at hc
      cases htr : trimRight rest with
      | nil =>
          rw [htr] at hc
          by_cases hw : a.isWhitespace
          · rw [if_pos hw] at hc; cases hc
          · rw [if_neg hw] at hc
            rcases List.mem_cons.mp hc with h | h
            · subst h; exact List.mem_cons_self _ _
            · cases h
      | cons r0 rt =>
          rw [htr] at hc
          rcases List.mem_cons.mp hc with h | h
          · subst h; exact List.mem_cons_self _ _
          · exact List.mem_cons_of_mem _ (ih c (htr ▸ h))

lemma trimRight_head (c : Char) (t : List Char) :
    trimRight (c :: t) = [] ∨ ∃ r, trimRight (c :: t) = c :: r := by
  rw [trimRight]
  cases htr : trimRight t with
  | nil =>
      by_cases hw : c.isWhitespace
      · left; rw [if_pos hw]
      · right; exact ⟨[], by rw [if_neg hw]⟩
  | cons r0 rt => right; exact ⟨r0 :: rt, rfl⟩

lemma lastNotWs_trimRight (s : List Char) : lastNotWs (trimRight s) = true := by
  induction s with
  | nil => rfl
  | cons c rest ih =>
      rw [trimRight]
      cases htr : trimRight rest with
      | nil =>
          by_cases hw : c.isWhitespace
          · rw [if_pos hw]; rfl
          · rw [if_neg hw]
            simp [lastNotWs, hw]
      | cons r0 rt =>
          show lastNotWs (c :: r0 :: rt) = true
          rw [lastNotWs]
          rw [← htr]
          exact ih

lemma noAdjWs_trimRight (s : List Char) (h : noAdjWs s = true) :
    noAdjWs (trimRight s) = true := by
  induction s with
  | nil => rfl
  | cons c rest ih =>
      have hrest := noAdjWs_cons_elim c rest h
      rw [trimRight]
      cases htr : trimRight rest with
      | nil =>
          by_cases hw : c.isWhitespace
          · rw [if_pos hw]; rfl
          · rw [if_neg hw]; rfl
      | cons r0 rt =>
          show noAdjWs (c :: r0 :: rt) = true
          cases rest with
          | nil => cases htr
          | cons b t =>
              rcases trimRight_head b t with h0 | ⟨r, hr⟩
              · rw [h0] at htr; cases htr
              · rw [hr] at htr
                injection htr with hb hrt
                have hcb : (!(c.isWhitespace && r0.isWhitespace)) = true := by
                  rw [← hb]
                  unfold noAdjWs at h
                  rw [Bool.and_eq_true] at h
                  exact h.1
                have hrec := ih hrest
                rw [hr, hb, hrt] at hrec
                unfold noAdjWs
                rw [Bool.and_eq_true]
                exact ⟨hcb, hrec⟩

lemma headNotWs_trimRight (s : List Char) (h : headNotWs s = true) :
    headNotWs (trimRight s) = true := by
  cases s with
  | nil => rfl
  | cons c t =>
      rcases trimRight_head c t with h0 | ⟨r, hr⟩
      · rw [h0]; rfl
      · rw [hr]
        simpa [headNotWs] using h

lemma headNotWs_dropWhileWs (s : List Char) :
    headNotWs (s.dropWhile Char.isWhitespace) = true := by
  induction s with
  | nil => rfl
  | cons c rest ih =>
      by_cases hw : c.isWhitespace
      · rw [List.dropWhile_cons_of_pos hw]; exact ih
      · rw [List.dropWhile_cons_of_neg hw]
        simpa [headNotWs] using hw

lemma noAdjWs_dropWhileWs (s : List Char) (h : noAdjWs s = true) :
    noAdjWs (s.dropWhile Char.isWhitespace) = true := by
  induction s with
  | nil => rfl
  | cons c rest ih =>
      by_cases hw : c.isWhitespace
      · rw [List.dropWhile_cons_of_pos hw]
        exact ih (noAdjWs_cons_elim c rest h)
      · rw [List.dropWhile_cons_of_neg hw]
        exact h

lemma mem_dropWhileWs (s : List Char) :
    ∀ c ∈ s.dropWhile Char.isWhitespace, c ∈ s := by
  induction s with
  | nil => intro c hc; cases hc
  | cons a rest ih =>
      intro c hc
      by_cases hw : a.isWhitespace
      · rw [List.dropWhile_cons_of_pos hw] at hc
        exact List.mem_cons_of_mem _ (ih c hc)
      · rw [List.dropWhile_cons_of_neg hw] at hc
        exact hc

lemma dropWhileWs_eq_self (s : List Char) (h : headNotWs s = true) :
    s.dropWhile Char.isWhitespace = s := by
  cases s with
  | nil => rfl
  | cons c t =>
      simp only [headNotWs, Bool.not_eq_true'] at h
      rw [List.dropWhile_cons_of_neg (by simp [h])]

lemma trimRight_eq_self (s : List Char) (h : lastNotWs s = true) :
    trimRight s = s := by
  induction s with
  | nil => rfl
  | cons c rest ih =>
      cases rest with
      | nil =>
          simp only [lastNotWs, Bool.not_eq_true'] at h
          rw [trimRight, trimRight, if_neg (by simp [h])]
      | cons b t =>
          have hrest : lastNotWs (b :: t) = true := h
          rw [trimRight, ih hrest]

/-! ### Uppercasing preserves the shape -/

lemma toUpper_of_lower (c : Char) (h : c.toNat ≥ 97 ∧ c.toNat ≤ 122) :
    Char.toUpper c = Char.ofNat (c.toNat - 32) := by
  rw [Char.toUpper, if_pos h]

lemma toUpper_of_not_lower (c : Char) (h : ¬(c.toNat ≥ 97 ∧ c.toNat ≤ 122)) :
    Char.toUpper c = c := by
  rw [Char.toUpper, if_neg h]

lemma toUpper_isWhitespace (c : Char) :
    (Char.toUpper c).isWhitespace = c.isWhitespace := by
  by_cases h : c.toNat ≥ 97 ∧ c.toNat ≤ 122
  · rw [toUpper_of_lower c h]
    have hcws : c.isWhitespace = false := by
      have h32 : c ≠ ' ' := fun he => by rw [he] at h; exact absurd h.1 (by decide)
      have h9 : c ≠ '\t' := fun he => by rw [he] at h; exact absurd h.1 (by decide)
      have h13 : c ≠ '\r' := fun he => by rw [he] at h; exact absurd h.1 (by decide)
      have h10 : c ≠ '\n' := fun he => by rw [he] at h; exact absurd h.1 (by decide)
      simp [Char.isWhitespace, h32, h9, h13, h10]
    rw [hcws]
    obtain ⟨hb1, hb2⟩ : 65 ≤ c.toNat - 32 ∧ c.toNat - 32 ≤ 90 := by omega
    generalize c.toNat - 32 = m at hb1 hb2
    interval_cases m <;> decide
  · rw [toUpper_of_not_lower c h]

lemma toUpper_toUpper (c : Char) :
    Char.toUpper (Char.toUpper c) = Char.toUpper c := by
  by_cases h : c.toNat ≥ 97 ∧ c.toNat ≤ 122
  · rw [toUpper_of_lower c h]
    obtain ⟨hb1, hb2⟩ : 65 ≤ c.toNat - 32 ∧ c.toNat - 32 ≤ 90 := by omega
    generalize c.toNat - 32 = m at hb1 hb2
    interval_cases m <;> decide
  · rw [toUpper_of_not_lower c h, toUpper_of_not_lower c h]

lemma toUpper_toNat_lt (c : Char) (h : c.toNat < 128) :
    (Char.toUpper c).toNat < 128 := by
  by_cases hr : c.toNat ≥ 97 ∧ c.toNat ≤ 122
  · rw [toUpper_of_lower c hr]
    obtain ⟨hb1, hb2⟩ : 65 ≤ c.toNat - 32 ∧ c.toNat - 32 ≤ 90 := by omega
    generalize c.toNat - 32 = m at hb1 hb2
    interval_cases m <;> decide
  · rw [toUpper_of_not_lower c hr]
    exact h

lemma headNotWs_upperList (s : List Char) (h : headNotWs s = true) :
    headNotWs (upperList s) = true := by
  cases s with
  | nil => rfl
  | cons c t =>
      simp only [headNotWs, Bool.not_eq_true'] at h
      simp [upperList, headNotWs, toUpper_isWhitespace, h]

lemma lastNotWs_upperList (s : List Char) (h : lastNotWs s = true) :
    lastNotWs (upperList s) = true := by
  induction s with
  | nil => rfl
  | cons c rest ih =>
      cases rest with
      | nil =>
          simp only [lastNotWs, Bool.not_eq_true'] at h
          simp [upperList, lastNotWs, toUpper_isWhitespace, h]
      | cons b t =>
          have hrest : lastNotWs (b :: t) = true := h
          show lastNotWs (Char.toUpper c :: Char.toUpper b :: List.map Char.toUpper t) = true
          rw [lastNotWs]
          exact ih hrest

lemma noAdjWs_upperList (s : List Char) (h : noAdjWs s = true) :
    noAdjWs (upperList s) = true := by
  induction s with
  | nil => rfl
  | cons c rest ih =>
      cases rest with
      | nil => rfl
      | cons b t =>
          unfold noAdjWs at h
          rw [Bool.and_eq_true] at h
          show noAdjWs (Char.toUpper c :: Char.toUpper b :: List.map Char.toUpper t) = true
          rw [noAdjWs, Bool.and_eq_true]
          constructor
          · rw [toUpper_isWhitespace, toUpper_isWhitespace]
            exact h.1
          · exact ih h.2

lemma allSpaceWs_upperList (s : List Char) (h : allSpaceWs s = true) :
    allSpaceWs (upperList s) = true := by
  rw [allSpaceWs_iff] at h ⊢
  intro d hd
  rcases List.mem_map.mp hd with ⟨c, hc, rfl⟩
  rcases h c hc with h1 | h1
  · left; rw [toUpper_isWhitespace]; exact h1
  · right; subst h1; rfl

lemma asciiL_upperList (s : List Char) (h : asciiL s = true) :
    asciiL (upperList s) = true := by
  rw [asciiL_iff] at h ⊢
  intro d hd
  rcases List.mem_map.mp hd with ⟨c, hc, rfl⟩
  exact toUpper_toNat_lt c (h c hc)

lemma upperList_upperList (s : List Char) :
    upperList (upperList s) = upperList s := by
  induction s with
  | nil => rfl
  | cons c rest ih =>
      show Char.toUpper (Char.toUpper c) :: upperList (upperList rest)
        = Char.toUpper c :: upperList rest
      rw [toUpper_toUpper, ih]

lemma asciiL_trimList (s : List Char) (h : asciiL s = true) :
    asciiL (trimList s) = true := by
  rw [asciiL_iff] at h ⊢
  intro c hc
  exact h c (mem_dropWhileWs s c (mem_trimRight _ c hc))

lemma trimList_eq_self (s : List Char) (hh : headNotWs s = true)
    (hl : lastNotWs s = true) : trimList s = s := by
  unfold trimList
  rw [dropWhileWs_eq_self s hh, trimRight_eq_self _ hl]

/-! ### The translator on ASCII input, and its idempotence there -/

lemma translateTextL_ascii (s : List Char) (h : asciiL s = true) :
    translateTextL s = upperList (trimList (collapseWs s)) := by
  by_cases hz : s = []
  · subst hz; rfl
  · rw [translateTextL, if_neg hz, applyMapS_id PREF_MAP s pref_heads h,
      applyMapS_id SUFFIX_MAP s suffix_heads h]

lemma translateTextL_fix (s : List Char) (h : asciiL s = true) :
    translateTextL (translateTextL s) = translateTextL s := by
  by_cases hz : s = []
  · subst hz; rfl
  · rw [translateTextL_ascii s h]
    have hn : noAdjWs (trimList (collapseWs s)) = true :=
      noAdjWs_trimRight _ (noAdjWs_dropWhileWs _ (noAdjWs_collapseWsGo s false))
    have hsp : allSpaceWs (trimList (collapseWs s)) = true := by
      rw [allSpaceWs_iff]
      intro c hc
      exact (allSpaceWs_iff _).mp (allSpaceWs_collapseWsGo s false) c
        (mem_dropWhileWs _ c (mem_trimRight _ c hc))
    have hh : headNotWs (trimList (collapseWs s)) = true :=
      headNotWs_trimRight _ (headNotWs_dropWhileWs _)
    have hl : lastNotWs (trimList (collapseWs s)) = true := lastNotWs_trimRight _
    have ha : asciiL (upperList (trimList (collapseWs s))) = true :=
      asciiL_upperList _ (asciiL_trimList _ (asciiL_collapseWsGo s false h))
    by_cases ht0 : upperList (trimList (collapseWs s)) = []
    · rw [ht0]; rfl
    · rw [translateTextL, if_neg ht0, applyMapS_id PREF_MAP _ pref_heads ha,
        applyMapS_id SUFFIX_MAP _ suffix_heads ha]
      have hcfix : collapseWs (upperList (trimList (collapseWs s)))
          = upperList (trimList (collapseWs s)) :=
        (collapseWsGo_fix _ (noAdjWs_upperList _ hn) (allSpaceWs_upperList _ hsp)).1
      rw [hcfix]
      rw [trimList_eq_self _ (headNotWs_upperList _ hh) (lastNotWs_upperList _ hl),
        upperList_upperList]

/-! ## Unfolding equations for the feed processors -/

lemma processQuake_cons (item : QuakeItem) (rest : List QuakeItem)
    (prev : Option QuakeData) :
    processQuake (.arr (item :: rest)) prev =
      match item.earthquake with
      | some q =>
          some { time := q.time
                 hypocenter := translateText q.hypocenterName
                 magnitude := q.magnitude
                 maxScale := q.maxScale
                 depth := q.depth }
      | none => prev := rfl

lemma processEEW_cons (parseTime : String → Int) (now : Int) (item : EEWItem)
    (rest : List EEWItem) (prev : Option EEWData) :
    processEEW parseTime now (.arr (item :: rest)) prev =
      if now - parseTime item.time < 3 * 60 * 1000 ∧ item.cancelled = false then
        match item.earthquake with
        | some ea => some (mkEEWData item ea)
        | none => prev
      else none := rfl

/-! ## Claim theorems: alert sound -/

/-- C1: a sound fires at most once per distinct event timestamp.  If a run of
the alert evaluation fires the sound, re-running the evaluation with the same
three records and the updated `lastAlertTime` fires no sound and leaves
`lastAlertTime` unchanged — so two consecutive updates carrying the same event
timestamp fire exactly once. -/
theorem alert_sound_dedup (quakeData : Option QuakeData)
    (tsunamiData : Option TsunamiData) (eewData : Option EEWData)
    (lastAlertTime : Option String)
    (h : (alertStep quakeData tsunamiData eewData lastAlertTime).played = true) :
    (alertStep quakeData tsunamiData eewData
        ((alertStep quakeData tsunamiData eewData lastAlertTime).lastAlertTime)).played
      = false ∧
    (alertStep quakeData tsunamiData eewData
        ((alertStep quakeData tsunamiData eewData lastAlertTime).lastAlertTime)).lastAlertTime
      = (alertStep quakeData tsunamiData eewData lastAlertTime).lastAlertTime := by
  cases eewData with
  | some ed =>
      by_cases hne : lastAlertTime ≠ some ed.time
      · by_cases he : ed.time = ""
        · rw [he] at hne
          simp [alertStep, alertSelect, hne, he] at h
        · simp [alertStep, alertSelect, hne, he]
      · simp [alertStep, alertSelect, hne] at h
  | none =>
      cases quakeData with
      | some qd =>
          by_cases hs : qd.maxScale ≥ 30
          · by_cases hne : lastAlertTime ≠ some qd.time
            · by_cases he : qd.time = ""
              · rw [he] at hne
                simp [alertStep, alertSelect, hs, hne, he] at h
              · simp [alertStep, alertSelect, hs, hne, he]
            · simp [alertStep, alertSelect, hs, hne] at h
          · cases tsunamiData with
            | some td =>
                by_cases hc : td.cancelled = false
                · by_cases hne : lastAlertTime ≠ some td.time
                  · by_cases he : td.time = ""
                    · rw [he] at hne
                      simp [alertStep, alertSelect, tsunamiCheck, hs, hc, hne, he] at h
                    · simp [alertStep, alertSelect, tsunamiCheck, hs, hc, hne, he]
                  · simp [alertStep, alertSelect, tsunamiCheck, hs, hc, hne] at h
                · simp [alertStep, alertSelect, tsunamiCheck, hs, hc] at h
            | none => simp [alertStep, alertSelect, tsunamiCheck, hs] at h
      | none =>
          cases tsunamiData with
          | some td =>
              by_cases hc : td.cancelled = false
              · by_cases hne : lastAlertTime ≠ some td.time
                · by_cases he : td.time = ""
                  · rw [he] at hne
                    simp [alertStep, alertSelect, tsunamiCheck, hc, hne, he] at h
                  · simp [alertStep, alertSelect, tsunamiCheck, hc, hne, he]
                · simp [alertStep, alertSelect, tsunamiCheck, hc, hne] at h
              · simp [alertStep, alertSelect, tsunamiCheck, hc] at h
          | none => simp [alertStep, alertSelect, tsunamiCheck] at h

/-- C1 witness: a fresh EEW record with no previously alerted timestamp fires,
and the immediately following evaluation with the same records is silent. -/
theorem alert_sound_dedup_witness :
    (alertStep none none (some edSample)
        ((alertStep none none (some edSample) none).lastAlertTime)).played = false ∧
    (alertStep none none (some edSample)
        ((alertStep none none (some edSample) none).lastAlertTime)).lastAlertTime
      = (alertStep none none (some edSample) none).lastAlertTime :=
  alert_sound_dedup none none (some edSample) none (by decide)

/-- C2: the alert evaluation considers a present EEW record first, then an
earthquake with `maxScale ≥ 30`, then a non-cancelled tsunami; a fired sound
always belongs to the record selected by that order (witnessed by the record's
timestamp being stored in `lastAlertTime`, and the `isEEW` flag in the EEW
case). -/
theorem alert_priority (quakeData : Option QuakeData)
    (tsunamiData : Option TsunamiData) (eewData : Option EEWData)
    (lastAlertTime : Option String)
    (h : (alertStep quakeData tsunamiData eewData lastAlertTime).played = true) :
    (∃ ed, eewData = some ed ∧
        (alertStep quakeData tsunamiData eewData lastAlertTime).isEEW = true ∧
        (alertStep quakeData tsunamiData eewData lastAlertTime).lastAlertTime
          = some ed.time) ∨
    (eewData = none ∧ ∃ qd, quakeData = some qd ∧ 30 ≤ qd.maxScale ∧
        (alertStep quakeData tsunamiData eewData lastAlertTime).lastAlertTime
          = some qd.time) ∨
    (eewData = none ∧ (∀ qd, quakeData = some qd → qd.maxScale < 30) ∧
        ∃ td, tsunamiData = some td ∧ td.cancelled = false ∧
        (alertStep quakeData tsunamiData eewData lastAlertTime).lastAlertTime
          = some td.time) := by
  cases eewData with
  | some ed =>
      left
      refine ⟨ed, rfl, ?_, ?_⟩ <;>
      · by_cases hne : lastAlertTime ≠ some ed.time
        · by_cases he : ed.time = ""
          · rw [he] at hne
            simp [alertStep, alertSelect, hne, he] at h
          · simp [alertStep, alertSelect, hne, he]
        · simp [alertStep, alertSelect, hne] at h
  | none =>
      cases quakeData with
      | some qd =>
          by_cases hs : qd.maxScale ≥ 30
          · right; left
            refine ⟨rfl, qd, rfl, hs, ?_⟩
            by_cases hne : lastAlertTime ≠ some qd.time
            · by_cases he : qd.time = ""
              · rw [he] at hne
                simp [alertStep, alertSelect, hs, hne, he] at h
              · simp [alertStep, alertSelect, hs, hne, he]
            · simp [alertStep, alertSelect, hs, hne] at h
          · right; right
            refine ⟨rfl, ⟨(fun q hq => by cases hq; omega), ?_⟩⟩
            cases tsunamiData with
            | some td =>
                by_cases hc : td.cancelled = false
                · by_cases hne : lastAlertTime ≠ some td.time
                  · by_cases he : td.time = ""
                    · rw [he] at hne
                      simp [alertStep, alertSelect, tsunamiCheck, hs, hc, hne, he] at h
                    · exact ⟨td, rfl, hc, by
                        simp [alertStep, alertSelect, tsunamiCheck, hs, hc, hne, he]⟩
                  · simp [alertStep, alertSelect, tsunamiCheck, hs, hc, hne] at h
                · simp [alertStep, alertSelect, tsunamiCheck, hs, hc] at h
            | none => simp [alertStep, alertSelect, tsunamiCheck, hs] at h
      | none =>
          right; right
          refine ⟨rfl, ⟨(fun q hq => by cases hq), ?_⟩⟩
          cases tsunamiData with
          | some td =>
              by_cases hc : td.cancelled = false
              · by_cases hne : lastAlertTime ≠ some td.time
                · by_cases he : td.time = ""
                  · rw [he] at hne
                    simp [alertStep, alertSelect, tsunamiCheck, hc, hne, he] at h
                  · exact ⟨td, rfl, hc, by
                      simp [alertStep, alertSelect, tsunamiCheck, hc, hne, he]⟩
                · simp [alertStep, alertSelect, tsunamiCheck, hc, hne] at h
              · simp [alertStep, alertSelect, tsunamiCheck, hc] at h
          | none => simp [alertStep, alertSelect, tsunamiCheck] at h

/-- C2 witness: with all three records present, the fired alert belongs to the
EEW record. -/
theorem alert_priority_witness :
    (∃ ed, (some edSample : Option EEWData) = some ed ∧
        (alertStep (some qdSample) (some tdSample) (some edSample) none).isEEW = true ∧
        (alertStep (some qdSample) (some tdSample) (some edSample) none).lastAlertTime
          = some ed.time) ∨
    ((some edSample : Option EEWData) = none ∧ ∃ qd,
        (some qdSample : Option QuakeData) = some qd ∧ 30 ≤ qd.maxScale ∧
        (alertStep (some qdSample) (some tdSample) (some edSample) none).lastAlertTime
          = some qd.time) ∨
    ((some edSample : Option EEWData) = none ∧
        (∀ qd, (some qdSample : Option QuakeData) = some qd → qd.maxScale < 30) ∧
        ∃ td, (some tdSample : Option TsunamiData) = some td ∧ td.cancelled = false ∧
        (alertStep (some qdSample) (some tdSample) (some edSample) none).lastAlertTime
          = some td.time) :=
  alert_priority (some qdSample) (some tdSample) (some edSample) none (by decide)

/-! ## Claim theorems: EEW feed processing -/

/-- C3: a non-empty EEW poll result whose newest item is at least 3 minutes
old or cancelled clears the stored record to `none`; a fresh, non-cancelled
newest item carrying an `earthquake` field stores the record built from it. -/
theorem eew_freshness (parseTime : String → Int) (now : Int) (item : EEWItem)
    (rest : List EEWItem) (prev : Option EEWData) (ea : EEWEarthquakeField) :
    (3 * 60 * 1000 ≤ now - parseTime item.time ∨ item.cancelled = true →
      processEEW parseTime now (.arr (item :: rest)) prev = none) ∧
    (now - parseTime item.time < 3 * 60 * 1000 → item.cancelled = false →
      item.earthquake = some ea →
      processEEW parseTime now (.arr (item :: rest)) prev
        = some (mkEEWData item ea)) := by
  constructor
  · intro hcase
    rw [processEEW_cons, if_neg]
    rcases hcase with hstale | hcan
    · exact fun hcontra => by omega
    · exact fun hcontra => by rw [hcan] at hcontra; exact absurd hcontra.2 (by decide)
  · intro hfresh hcan hea
    rw [processEEW_cons, if_pos ⟨hfresh, hcan⟩, hea]

/-- C3 witness: a stale item clears the record, a fresh one stores the record
built from it. -/
theorem eew_freshness_witness :
    processEEW (fun _ => 0) 300000 (.arr [eewItemStale]) none = none ∧
    processEEW (fun _ => 0) 0 (.arr [eewItemSample]) none
      = some (mkEEWData eewItemSample eewAreaSample) :=
  ⟨(eew_freshness (fun _ => 0) 300000 eewItemStale [] none eewAreaSample).1
      (Or.inl (by decide)),
   (eew_freshness (fun _ => 0) 0 eewItemSample [] none eewAreaSample).2
      (by decide) rfl rfl⟩

/-- C10: the polling path only ever stores EEW records with
`isCancelled = false` — the record is built in the branch guarded by
`!latestEEW.cancelled` and copies that flag — so if the previously stored
record (if any) has `isCancelled = false`, any record present after a poll
does too, and the CANCELLED badge (shown iff `isCancelled`) is unreachable
from polled data. -/
theorem eew_stored_not_cancelled (parseTime : String → Int) (now : Int)
    (resp : FeedResponse EEWItem) (prev : Option EEWData) (r : EEWData)
    (hprev : ∀ p, prev = some p → p.isCancelled = false)
    (h : processEEW parseTime now resp prev = some r) :
    r.isCancelled = false := by
  cases resp with
  | failed => exact hprev r h
  | emptyBody => exact hprev r h
  | notArray => exact hprev r h
  | arr items =>
      cases items with
      | nil => exact hprev r h
      | cons item rest =>
          rw [processEEW_cons] at h
          by_cases hc : now - parseTime item.time < 3 * 60 * 1000 ∧ item.cancelled = false
          · rw [if_pos hc] at h
            cases hea : item.earthquake with
            | some ea =>
                rw [hea] at h
                cases h
                simpa [mkEEWData] using hc.2
            | none =>
                rw [hea] at h
                exact hprev r h
          · rw [if_neg hc] at h
            cases h

/-- C10 witness: the record stored for a concrete fresh poll item is not
cancelled. -/
theorem eew_stored_not_cancelled_witness :
    (mkEEWData eewItemSample eewAreaSample).isCancelled = false :=
  eew_stored_not_cancelled (fun _ => 0) 0 (.arr [eewItemSample]) none
    (mkEEWData eewItemSample eewAreaSample) (fun p hp => by cases hp) rfl

/-! ## Claim theorems: error handling of the three feeds (C5) -/

/-- C5 counterexample: a non-empty tsunami payload whose first item lacks the
`areas` field does not leave the stored tsunami record unchanged — it clears
it to `none`. -/
theorem tsunami_cleared_on_missing_areas :
    processTsunami
        (.arr [{ time := "2025-11-22T10:00:00", cancelled := false, areas := none }])
        (some tdSample) = none ∧
    processTsunami
        (.arr [{ time := "2025-11-22T10:00:00", cancelled := false, areas := none }])
        (some tdSample) ≠ some tdSample := by
  exact ⟨rfl, by decide⟩

/-- C5 as amended: a failed, absent, empty or malformed response leaves each
feed's stored record unchanged — a quake item without `earthquake`, and a
fresh non-cancelled EEW item without `earthquake`, also leave the record
unchanged — except that a non-empty tsunami payload whose first item lacks
`areas` clears the stored tsunami record to `none`. -/
theorem feed_failure_persistence (pq : Option QuakeData) (pt : Option TsunamiData)
    (pe : Option EEWData) (parseTime : String → Int) (now : Int)
    (qi : QuakeItem) (qrest : List QuakeItem) (ti : TsunamiItem)
    (trest : List TsunamiItem) (ei : EEWItem) (erest : List EEWItem) :
    (processQuake .failed pq = pq ∧ processQuake .emptyBody pq = pq ∧
      processQuake .notArray pq = pq ∧ processQuake (.arr []) pq = pq ∧
      (qi.earthquake = none → processQuake (.arr (qi :: qrest)) pq = pq)) ∧
    (processTsunami .failed pt = pt ∧ processTsunami .emptyBody pt = pt ∧
      processTsunami .notArray pt = pt ∧ processTsunami (.arr []) pt = pt ∧
      (ti.areas = none → processTsunami (.arr (ti :: trest)) pt = none)) ∧
    (processEEW parseTime now .failed pe = pe ∧
      processEEW parseTime now .emptyBody pe = pe ∧
      processEEW parseTime now .notArray pe = pe ∧
      processEEW parseTime now (.arr []) pe = pe ∧
      (now - parseTime ei.time < 3 * 60 * 1000 → ei.cancelled = false →
        ei.earthquake = none →
        processEEW parseTime now (.arr (ei :: erest)) pe = pe)) := by
  refine ⟨⟨rfl, rfl, rfl, rfl, ?_⟩, ⟨rfl, rfl, rfl, rfl, ?_⟩,
    ⟨rfl, rfl, rfl, rfl, ?_⟩⟩
  · intro hq
    rw [processQuake_cons, hq]
  · intro ht
    cases ti with
    | mk time cancelled areas => cases ht; rfl
  · intro hfresh hcan hea
    rw [processEEW_cons, if_pos ⟨hfresh, hcan⟩, hea]

/-- C5 witness: concrete failed / empty / malformed responses leave concrete
stored records in place; the tsunami areas-less item clears the record. -/
theorem feed_failure_persistence_witness :
    (processQuake .failed (some qdSample) = some qdSample ∧
      processQuake .emptyBody (some qdSample) = some qdSample ∧
      processQuake .notArray (some qdSample) = some qdSample ∧
      processQuake (.arr []) (some qdSample) = some qdSample ∧
      ((QuakeItem.mk none).earthquake = none →
        processQuake (.arr [QuakeItem.mk none]) (some qdSample) = some qdSample)) ∧
    (processTsunami .failed (some tdSample) = some tdSample ∧
      processTsunami .emptyBody (some tdSample) = some tdSample ∧
      processTsunami .notArray (some tdSample) = some tdSample ∧
      processTsunami (.arr []) (some tdSample) = some tdSample ∧
      ((TsunamiItem.mk "2025-11-22T10:00:00" false none).areas = none →
        processTsunami (.arr [TsunamiItem.mk "2025-11-22T10:00:00" false none])
          (some tdSample) = none)) ∧
    (processEEW (fun _ => 0) 0 .failed (some edSample) = some edSample ∧
      processEEW (fun _ => 0) 0 .emptyBody (some edSample) = some edSample ∧
      processEEW (fun _ => 0) 0 .notArray (some edSample) = some edSample ∧
      processEEW (fun _ => 0) 0 (.arr []) (some edSample) = some edSample ∧
      (0 - (fun (_ : String) => (0 : Int)) (EEWItem.mk "t" false none "Warning").time
          < 3 * 60 * 1000 →
        (EEWItem.mk "t" false none "Warning").cancelled = false →
        (EEWItem.mk "t" false none "Warning").earthquake = none →
        processEEW (fun _ => 0) 0 (.arr [EEWItem.mk "t" false none "Warning"])
          (some edSample) = some edSample)) :=
  feed_failure_persistence (some qdSample) (some tdSample) (some edSample)
    (fun _ => 0) 0 (QuakeItem.mk none) []
    (TsunamiItem.mk "2025-11-22T10:00:00" false none) []
    (EEWItem.mk "t" false none "Warning") []

/-! ## Claim theorems: display mode -/

/-- C4: while an EEW record is present (outside test mode) the mode-selection
effect forces mode `EEW` and installs no rotation timer, the mode tabs are
disabled, and a click on either tab leaves the mode unchanged — so manual
mode switching is a no-op until the record clears. -/
theorem eew_forces_mode (eewData : Option EEWData) (ed : EEWData)
    (activeMode target : DisplayMode) (h : eewData = some ed) :
    modeEffect false eewData activeMode = (DisplayMode.EEW, none) ∧
    isEEWActive eewData = true ∧
    clickModeButton eewData activeMode target = activeMode := by
  subst h
  refine ⟨rfl, rfl, ?_⟩
  simp [clickModeButton, isEEWActive]

/-- C4 witness: with a concrete EEW record present, the mode is forced and a
click on the TSUNAMI tab does nothing. -/
theorem eew_forces_mode_witness :
    modeEffect false (some edSample) DisplayMode.EARTHQUAKE
      = (DisplayMode.EEW, none) ∧
    isEEWActive (some edSample) = true ∧
    clickModeButton (some edSample) DisplayMode.EARTHQUAKE DisplayMode.TSUNAMI
      = DisplayMode.EARTHQUAKE :=
  eew_forces_mode (some edSample) edSample DisplayMode.EARTHQUAKE
    DisplayMode.TSUNAMI rfl

/-- C6: with no EEW record and test mode off, the mode-selection effect keeps
the current (non-EEW) mode and installs the 10-second rotation timer; each
tick toggles `EARTHQUAKE ↔ TSUNAMI`; a manual tab click overrides the mode. -/
theorem mode_rotation_no_eew (m target : DisplayMode) :
    modeEffect false none DisplayMode.EARTHQUAKE
      = (DisplayMode.EARTHQUAKE, some 10000) ∧
    modeEffect false none DisplayMode.TSUNAMI
      = (DisplayMode.TSUNAMI, some 10000) ∧
    rotationTick DisplayMode.EARTHQUAKE = DisplayMode.TSUNAMI ∧
    rotationTick DisplayMode.TSUNAMI = DisplayMode.EARTHQUAKE ∧
    clickModeButton none m target = target := by
  refine ⟨by decide, by decide, by decide, by decide, ?_⟩
  simp [clickModeButton, isEEWActive]

/-! ## Claim theorems: intensity classifier -/

/-- C8: the intensity classifier realises the exhaustive table
`-1 ↦ UNKNOWN, 10 ↦ 1, 20 ↦ 2, 30 ↦ 3, 40 ↦ 4, 45 ↦ 5- (LOWER),
50 ↦ 5+ (UPPER), 55 ↦ 6- (LOWER), 60 ↦ 6+ (UPPER), 70 ↦ 7 (MAX)`, with the
unmapped code 999 giving `?`; it is a total function. -/
theorem getIntensityLabel_table :
    getIntensityLabel (-1) = "UNKNOWN" ∧ getIntensityLabel 10 = "1" ∧
    getIntensityLabel 20 = "2" ∧ getIntensityLabel 30 = "3" ∧
    getIntensityLabel 40 = "4" ∧ getIntensityLabel 45 = "5- (LOWER)" ∧
    getIntensityLabel 50 = "5+ (UPPER)" ∧ getIntensityLabel 55 = "6- (LOWER)" ∧
    getIntensityLabel 60 = "6+ (UPPER)" ∧ getIntensityLabel 70 = "7 (MAX)" ∧
    getIntensityLabel 999 = "?" := by
  decide

set_option maxHeartbeats 1000000 in
/-- C9: every scale below 10 other than `-1` maps to `"0"` (in particular
`-2`), `"UNKNOWN"` is returned exactly for `-1`, and `"?"` only for scales
greater than 10 that are none of the listed codes. -/
theorem getIntensityLabel_edges (scale : Int) :
    (scale < 10 → scale ≠ -1 → getIntensityLabel scale = "0") ∧
    (getIntensityLabel scale = "UNKNOWN" ↔ scale = -1) ∧
    (getIntensityLabel scale = "?" →
      10 < scale ∧ scale ≠ 20 ∧ scale ≠ 30 ∧ scale ≠ 40 ∧ scale ≠ 45 ∧
      scale ≠ 50 ∧ scale ≠ 55 ∧ scale ≠ 60 ∧ scale ≠ 70) ∧
    getIntensityLabel (-2) = "0" := by
  refine ⟨?_, ?_, ?_, by decide⟩
  · intro hlt hne
    unfold getIntensityLabel
    split_ifs <;> first | rfl | omega
  · constructor
    · intro hlab
      unfold getIntensityLabel at hlab
      split_ifs at hlab with h1 <;> first | exact h1 | exact absurd hlab (by decide)
    · intro hm1
      simp [getIntensityLabel, hm1]
  · intro hlab
    unfold getIntensityLabel at hlab
    split_ifs at hlab <;> first | exact absurd hlab (by decide) | omega

/-- C9 witness: the three conjuncts evaluated at `-2`, where the first branch
fires. -/
theorem getIntensityLabel_edges_witness :
    ((-2 : Int) < 10 → (-2 : Int) ≠ -1 → getIntensityLabel (-2) = "0") ∧
    (getIntensityLabel (-2) = "UNKNOWN" ↔ (-2 : Int) = -1) ∧
    (getIntensityLabel (-2) = "?" →
      10 < (-2 : Int) ∧ (-2 : Int) ≠ 20 ∧ (-2 : Int) ≠ 30 ∧ (-2 : Int) ≠ 40 ∧
      (-2 : Int) ≠ 45 ∧ (-2 : Int) ≠ 50 ∧ (-2 : Int) ≠ 55 ∧ (-2 : Int) ≠ 60 ∧
      (-2 : Int) ≠ 70) ∧
    getIntensityLabel (-2) = "0" :=
  getIntensityLabel_edges (-2)

/-! ## Claim theorems: the translator (C7) -/

/-- C7 counterexample: the translator is not idempotent on arbitrary input.
Deleting the suffix key 道 (whose value is empty) from 青道森 juxtaposes
青 and 森 into the prefecture key 青森, which survives to the output; a second
translation turns it into AOMORI. -/
theorem translateText_not_idempotent :
    translateText (translateText "青道森") ≠ translateText "青道森" := by decide

/-- C7 as amended: on pure-ASCII (already-translated) input `translateText`
returns the input unchanged apart from whitespace normalization and
uppercasing, and is idempotent on such input.  (Idempotence for arbitrary
strings fails: see the counterexample.) -/
theorem translateText_ascii_idem (s : String) (h : asciiL s.toList = true) :
    translateText s = (upperList (trimList (collapseWs s.toList))).asString ∧
    translateText (translateText s) = translateText s := by
  constructor
  · rw [translateText, translateTextL_ascii s.toList h]
  · show (translateTextL ((translateTextL s.toList).asString).toList).asString
      = (translateTextL s.toList).asString
    have hts : ((translateTextL s.toList).asString).toList
        = translateTextL s.toList := rfl
    rw [hts, translateTextL_fix s.toList h]

/-- C7 witness: a concrete ASCII input with redundant whitespace. -/
theorem translateText_ascii_idem_witness :
    asciiL ("tokyo  bay ".toList) = true ∧
    (translateText "tokyo  bay "
        = (upperList (trimList (collapseWs ("tokyo  bay ".toList)))).asString ∧
      translateText (translateText "tokyo  bay ") = translateText "tokyo  bay ") :=
  ⟨by decide, translateText_ascii_idem "tokyo  bay " (by decide)⟩

end EEWWidget
